import Mathlib

/-!
Shallow embedding of the `simple-mcp-logger` core (`Logger` class of
`SimpleMcpLogger.ts`, plus the Winston and Pino adapter level maps), and
proofs of the behavioural claims about it.

Modelling conventions:
* JavaScript dynamic values passed as logging arguments are modelled by the
  ADT `JsValue` (null, boolean, integer number, string, and one level of
  plain object whose fields are scalars).  `typeof arg === "object"` holds
  for null and objects; `JSON.stringify` and `String(...)` are modelled on
  this domain (`jsonStringify`, `jsString`).
* Console invocation and file writing are modelled as explicit effect
  lists (`ConsoleCall`, `FileWrite`) returned by each method.
* `new Date().toISOString()` is nondeterministic input; the severity
  methods take the timestamp string as a parameter.
* `fs.createWriteStream` / `fs.mkdirSync` outcomes are an oracle
  parameter `OpenResult`: `ok` models a successful open, `fail msg`
  models the thrown error that the source catches in `initFileLogging`.
* JavaScript string truthiness (`if (this.config.logToFile)`,
  `this.config.prefix ? ... : ...`) is modelled by `strTruthy` /
  emptiness tests.  The config field `prefix` is named `pfx` here.
-/

/-- Log levels of the logger, from `type LogLevel`. -/
inductive LogLevel
  | debug
  | info
  | warn
  | error
  | silent
deriving DecidableEq, Repr, BEq

/-- Position of a level in the array `['debug', 'info', 'warn', 'error']`
as computed by `Array.indexOf` in `shouldLog` (`silent` is absent, so
`indexOf` yields `-1`). -/
def levelIndex : LogLevel → Int
  | .debug => 0
  | .info => 1
  | .warn => 2
  | .error => 3
  | .silent => -1

/-- Lower-case name of a level, as the string literals passed to
`writeToFile` by the severity methods. -/
def levelName : LogLevel → String
  | .debug => "debug"
  | .info => "info"
  | .warn => "warn"
  | .error => "error"
  | .silent => "silent"

/-- Scalar JavaScript values. -/
inductive JsPrim
  | jsNull
  | jsBool (b : Bool)
  | jsNum (n : Int)
  | jsStr (s : String)
deriving DecidableEq, Repr

/-- JavaScript values passed as structured logging arguments: a scalar, or
a plain object with scalar fields. -/
inductive JsValue
  | scalar (p : JsPrim)
  | obj (fields : List (String × JsPrim))
deriving DecidableEq, Repr

/-- Escaping performed by `JSON.stringify` inside string literals
(restricted to the characters our argument domain uses). -/
def jsonEscape (s : String) : String :=
  s.foldl (fun acc c =>
    acc ++ (if c == '"' then "\\\""
            else if c == '\\' then "\\\\"
            else if c == '\n' then "\\n"
            else if c == '\t' then "\\t"
            else if c == '\r' then "\\r"
            else String.singleton c)) ""

/-- Compact JSON rendering of a scalar, as `JSON.stringify` produces. -/
def jsPrimJson : JsPrim → String
  | .jsNull => "null"
  | .jsBool true => "true"
  | .jsBool false => "false"
  | .jsNum n => toString n
  | .jsStr s => "\"" ++ jsonEscape s ++ "\""

/-- Coercion of a scalar to a string, as `String(...)` produces. -/
def jsPrimString : JsPrim → String
  | .jsNull => "null"
  | .jsBool true => "true"
  | .jsBool false => "false"
  | .jsNum n => toString n
  | .jsStr s => s

/-- Compact JSON rendering of a value (`JSON.stringify(arg)`). -/
def jsonStringify : JsValue → String
  | .scalar p => jsPrimJson p
  | .obj fields =>
      "\x7b" ++
        String.intercalate ","
          (fields.map (fun kv => "\"" ++ jsonEscape kv.1 ++ "\":" ++ jsPrimJson kv.2)) ++
      "\x7d"

/-- String coercion of a value (`String(arg)`). -/
def jsString : JsValue → String
  | .scalar p => jsPrimString p
  | .obj _ => "[object Object]"

/-- The test `typeof arg === "object"` (true for objects and for `null`). -/
def typeofIsObject : JsValue → Bool
  | .scalar .jsNull => true
  | .scalar _ => false
  | .obj _ => true

/-- Per-argument serialization in `writeToFile`:
`typeof arg === "object" ? JSON.stringify(arg) : String(arg)`. -/
def serializeArg (a : JsValue) : String :=
  if typeofIsObject a then jsonStringify a else jsString a

/-- The `formattedArgs` expression of `writeToFile`: a leading space plus
the space-joined serialized args when there is at least one argument,
otherwise the empty string. -/
def formattedArgs (args : List JsValue) : String :=
  if args.length > 0 then " " ++ String.intercalate " " (args.map serializeArg)
  else ""

/-- ASCII upper-casing of one character, as `toUpperCase()` acts on the
severity names. -/
def asciiUpperChar (c : Char) : Char :=
  if c.toNat ≥ 97 ∧ c.toNat ≤ 122 then Char.ofNat (c.toNat - 32) else c

/-- ASCII upper-casing of a string (`level.toUpperCase()` in
`writeToFile`). -/
def toUpperStr (s : String) : String :=
  String.mk (s.data.map asciiUpperChar)

/-- JavaScript truthiness of an optional string field (`undefined` and the
empty string are falsy). -/
def strTruthy : Option String → Bool
  | none => false
  | some s => !(s == "")

/-- The `LoggerConfig` interface.  `pfx` models the `prefix` field; `none`
models an absent `logToFile`. -/
structure LoggerConfig where
  level : LogLevel
  mcpMode : Bool
  pfx : String
  logToFile : Option String
deriving DecidableEq, Repr

/-- State of the open write stream held by a logger (`fs.WriteStream`):
the path it appends to and its `destroyed` flag. -/
structure FileStream where
  path : String
  destroyed : Bool
deriving DecidableEq, Repr

/-- The `Logger` instance state: its config and its optional file stream. -/
structure Logger where
  config : LoggerConfig
  fileStream : Option FileStream
deriving DecidableEq, Repr

/-- Console primitives the logger delegates to. -/
inductive ConsolePrim
  | cdebug
  | cwarn
  | cerror
  | ctrace
  | ctable
  | cgroup
  | cgroupCollapsed
  | cgroupEnd
  | ctime
  | ctimeEnd
  | ctimeLog
  | ccount
  | ccountReset
  | cassert
  | cclear
  | cdir
  | cdirxml
deriving DecidableEq, Repr

/-- One invocation of a console primitive: which primitive, the formatted
text argument when one is passed, and the structured rest arguments. -/
structure ConsoleCall where
  prim : ConsolePrim
  text : Option String
  args : List JsValue
deriving DecidableEq, Repr

/-- One line written to the file sink: the path of the stream it went to
and the full line text (newline included). -/
structure FileWrite where
  path : String
  line : String
deriving DecidableEq, Repr

/-- Observable effect of one logging call. -/
structure LogOutput where
  console : List ConsoleCall
  fileWrites : List FileWrite
deriving DecidableEq, Repr

/-- Outcome oracle for `fs.mkdirSync` + `fs.createWriteStream`: either the
stream opens, or the pair throws with the given error message (that the
source then catches). -/
inductive OpenResult
  | ok
  | fail (msg : String)
deriving DecidableEq, Repr

/-- ASCII apostrophe, used inside the error strings of `initFileLogging`. -/
def squo : String := String.singleton (Char.ofNat 39)

/-- First console line emitted when `initFileLogging` catches an open
failure. -/
def initFailLine1 (filePath errorMessage : String) : String :=
  "SimpleMcpLogger: Failed to initialize file logging for " ++ squo ++ filePath ++ squo
    ++ ": " ++ errorMessage

/-- Second console line emitted when `initFileLogging` catches an open
failure. -/
def initFailLine2 : String :=
  "SimpleMcpLogger: Possible causes: invalid path, insufficient permissions, or disk full."

/-- The `initFileLogging` method: on success install the append stream; on
a thrown error, report two lines on `console.error` and leave the stream
unset. -/
def Logger.initFileLogging (st : Logger) (filePath : String) :
    OpenResult → Logger × List ConsoleCall
  | .ok => ({ st with fileStream := some ⟨filePath, false⟩ }, [])
  | .fail m =>
      ({ st with fileStream := none },
       [⟨.cerror, some (initFailLine1 filePath m), []⟩,
        ⟨.cerror, some initFailLine2, []⟩])

/-- The `Logger` constructor, applied to an already-merged config (the
source merges caller options over the defaults
`level = info, mcpMode = false, prefix = empty`): it initializes file
logging when `logToFile` is truthy. -/
def Logger.make (config : LoggerConfig) (o : OpenResult) : Logger × List ConsoleCall :=
  if strTruthy config.logToFile then
    Logger.initFileLogging ⟨config, none⟩ (config.logToFile.getD "") o
  else (⟨config, none⟩, [])

/-- The `close` method: when a live stream exists it is ended and the
field cleared; otherwise (no stream, or an already-destroyed one) the
state is unchanged. -/
def Logger.close (st : Logger) : Logger :=
  match st.fileStream with
  | some fs => if !fs.destroyed then { st with fileStream := none } else st
  | none => st

/-- The `setLogFile` method: close the existing stream, record the new
path in the config, then initialize file logging at the new path. -/
def Logger.setLogFile (st : Logger) (filePath : String) (o : OpenResult) :
    Logger × List ConsoleCall :=
  let st1 := st.close
  Logger.initFileLogging { st1 with config := { st1.config with logToFile := some filePath } }
    filePath o

/-- The `shouldLog` policy check. -/
def Logger.shouldLog (st : Logger) (level : LogLevel) : Bool :=
  if st.config.mcpMode && !(strTruthy st.config.logToFile) then false
  else if st.config.level == .silent then false
  else decide (levelIndex level ≥ levelIndex st.config.level)

/-- The `shouldLogToConsole` policy check. -/
def Logger.shouldLogToConsole (st : Logger) (level : LogLevel) : Bool :=
  st.shouldLog level && (!st.config.mcpMode || !(strTruthy st.config.logToFile))

/-- The `formatMessage` method: prepend the prefix and a space when the
prefix is truthy. -/
def Logger.formatMessage (st : Logger) (message : String) : String :=
  if st.config.pfx == "" then message else st.config.pfx ++ " " ++ message

/-- The `writeToFile` method: when a live stream exists, append one
timestamped, upper-cased-level, newline-terminated line. -/
def Logger.writeToFile (st : Logger) (timestamp : String) (level : String)
    (message : String) (args : List JsValue) : List FileWrite :=
  match st.fileStream with
  | some fs =>
      if !fs.destroyed then
        [⟨fs.path,
          "[" ++ timestamp ++ "] " ++ toUpperStr level ++ ": " ++ message
            ++ formattedArgs args ++ "\n"⟩]
      else []
  | none => []

/-- The `debug` method (console channel: `console.debug`). -/
def Logger.debug (st : Logger) (ts message : String) (args : List JsValue) : LogOutput :=
  if st.shouldLog .debug then
    { fileWrites :=
        if strTruthy st.config.logToFile then
          st.writeToFile ts "debug" (st.formatMessage message) args
        else []
      console :=
        if st.shouldLogToConsole .debug then
          [⟨.cdebug, some (st.formatMessage message), args⟩]
        else [] }
  else ⟨[], []⟩

/-- The `info` method (console channel: `console.error`, for MCP safety). -/
def Logger.info (st : Logger) (ts message : String) (args : List JsValue) : LogOutput :=
  if st.shouldLog .info then
    { fileWrites :=
        if strTruthy st.config.logToFile then
          st.writeToFile ts "info" (st.formatMessage message) args
        else []
      console :=
        if st.shouldLogToConsole .info then
          [⟨.cerror, some (st.formatMessage message), args⟩]
        else [] }
  else ⟨[], []⟩

/-- The `warn` method (console channel: `console.warn`). -/
def Logger.warn (st : Logger) (ts message : String) (args : List JsValue) : LogOutput :=
  if st.shouldLog .warn then
    { fileWrites :=
        if strTruthy st.config.logToFile then
          st.writeToFile ts "warn" (st.formatMessage message) args
        else []
      console :=
        if st.shouldLogToConsole .warn then
          [⟨.cwarn, some (st.formatMessage message), args⟩]
        else [] }
  else ⟨[], []⟩

/-- The `error` method (console channel: `console.error`). -/
def Logger.error (st : Logger) (ts message : String) (args : List JsValue) : LogOutput :=
  if st.shouldLog .error then
    { fileWrites :=
        if strTruthy st.config.logToFile then
          st.writeToFile ts "error" (st.formatMessage message) args
        else []
      console :=
        if st.shouldLogToConsole .error then
          [⟨.cerror, some (st.formatMessage message), args⟩]
        else [] }
  else ⟨[], []⟩

/-- The `log` method: an alias for `info`. -/
def Logger.log (st : Logger) (ts message : String) (args : List JsValue) : LogOutput :=
  st.info ts message args

/-- Dispatch to the severity method named by a level (the four public
severity methods; `silent` names no method and yields no effect). -/
def Logger.logAt (st : Logger) (L : LogLevel) (ts message : String)
    (args : List JsValue) : LogOutput :=
  match L with
  | .debug => st.debug ts message args
  | .info => st.info ts message args
  | .warn => st.warn ts message args
  | .error => st.error ts message args
  | .silent => ⟨[], []⟩

/-- The `mcpError` method: always `console.error`, never gated, never
written to the file sink. -/
def Logger.mcpError (st : Logger) (message : String) (args : List JsValue) : LogOutput :=
  ⟨[⟨.cerror, some (st.formatMessage message), args⟩], []⟩

/-- The `child` method: a fresh `Logger` built from a copy of the config
with the concatenated prefix (`parent:name` when the parent prefix is
truthy, else just `name`); the constructor re-opens the file sink, so the
open oracle is a parameter. -/
def Logger.child (st : Logger) (name : String) (o : OpenResult) :
    Logger × List ConsoleCall :=
  Logger.make
    { st.config with
        pfx := if st.config.pfx == "" then name else st.config.pfx ++ ":" ++ name }
    o

/-- Truthiness test `label ? this.formatMessage(label) : undefined` used by
the timer, count and group-style methods. -/
def Logger.fmtLabel (st : Logger) (label : Option String) : Option String :=
  match label with
  | some l => if l == "" then none else some (st.formatMessage l)
  | none => none

/-- The `trace` method: `console.trace` with the formatted message and args
when the message is truthy, else a bare `console.trace()`. -/
def Logger.trace (st : Logger) (message : Option String) (args : List JsValue) : LogOutput :=
  if st.shouldLog .debug then
    match message with
    | some m =>
        if m == "" then ⟨[⟨.ctrace, none, []⟩], []⟩
        else ⟨[⟨.ctrace, some (st.formatMessage m), args⟩], []⟩
    | none => ⟨[⟨.ctrace, none, []⟩], []⟩
  else ⟨[], []⟩

/-- The `table` method: `console.table(data, columns)` gated only by
`shouldLog('info')` (the columns argument is passed through unmodified and
not recorded in the effect). -/
def Logger.table (st : Logger) (data : JsValue) (columns : Option (List String)) : LogOutput :=
  if st.shouldLog .info then ⟨[⟨.ctable, none, [data]⟩], []⟩ else ⟨[], []⟩

/-- The `group` method. -/
def Logger.group (st : Logger) (label : Option String) : LogOutput :=
  if st.shouldLog .info then ⟨[⟨.cgroup, st.fmtLabel label, []⟩], []⟩ else ⟨[], []⟩

/-- The `groupCollapsed` method. -/
def Logger.groupCollapsed (st : Logger) (label : Option String) : LogOutput :=
  if st.shouldLog .info then ⟨[⟨.cgroupCollapsed, st.fmtLabel label, []⟩], []⟩ else ⟨[], []⟩

/-- The `groupEnd` method. -/
def Logger.groupEnd (st : Logger) : LogOutput :=
  if st.shouldLog .info then ⟨[⟨.cgroupEnd, none, []⟩], []⟩ else ⟨[], []⟩

/-- The `time` method. -/
def Logger.time (st : Logger) (label : Option String) : LogOutput :=
  if st.shouldLog .debug then ⟨[⟨.ctime, st.fmtLabel label, []⟩], []⟩ else ⟨[], []⟩

/-- The `timeEnd` method. -/
def Logger.timeEnd (st : Logger) (label : Option String) : LogOutput :=
  if st.shouldLog .debug then ⟨[⟨.ctimeEnd, st.fmtLabel label, []⟩], []⟩ else ⟨[], []⟩

/-- The `timeLog` method. -/
def Logger.timeLog (st : Logger) (label : Option String) (args : List JsValue) : LogOutput :=
  if st.shouldLog .debug then ⟨[⟨.ctimeLog, st.fmtLabel label, args⟩], []⟩ else ⟨[], []⟩

/-- The `count` method. -/
def Logger.count (st : Logger) (label : Option String) : LogOutput :=
  if st.shouldLog .debug then ⟨[⟨.ccount, st.fmtLabel label, []⟩], []⟩ else ⟨[], []⟩

/-- The `countReset` method. -/
def Logger.countReset (st : Logger) (label : Option String) : LogOutput :=
  if st.shouldLog .debug then ⟨[⟨.ccountReset, st.fmtLabel label, []⟩], []⟩ else ⟨[], []⟩

/-- The `assert` method: `console.assert` gated by `shouldLog('error')`;
the boolean condition is passed through to the primitive and not recorded
in the effect. -/
def Logger.assert (st : Logger) (condition : Bool) (message : Option String)
    (args : List JsValue) : LogOutput :=
  if st.shouldLog .error then
    match message with
    | some m =>
        if m == "" then ⟨[⟨.cassert, none, args⟩], []⟩
        else ⟨[⟨.cassert, some (st.formatMessage m), args⟩], []⟩
    | none => ⟨[⟨.cassert, none, args⟩], []⟩
  else ⟨[], []⟩

/-- The `clear` method: gated by `shouldLog('debug')` and by the probed
existence of `console.clear` (the `hasClear` parameter). -/
def Logger.clear (st : Logger) (hasClear : Bool) : LogOutput :=
  if st.shouldLog .debug && hasClear then ⟨[⟨.cclear, none, []⟩], []⟩ else ⟨[], []⟩

/-- The `dir` method (the options argument is passed through and not
recorded). -/
def Logger.dir (st : Logger) (o : JsValue) (options : Option JsValue) : LogOutput :=
  if st.shouldLog .info then ⟨[⟨.cdir, none, [o]⟩], []⟩ else ⟨[], []⟩

/-- The `dirxml` method. -/
def Logger.dirxml (st : Logger) (o : JsValue) : LogOutput :=
  if st.shouldLog .info then ⟨[⟨.cdirxml, none, [o]⟩], []⟩ else ⟨[], []⟩

/-- The `levelMap` record literal of
`SimpleMcpWinstonTransport.mapWinstonLevelToMcp`. -/
def winstonLevelMap : List (String × LogLevel) :=
  [("error", .error), ("warn", .warn), ("info", .info), ("http", .info),
   ("verbose", .debug), ("debug", .debug), ("silly", .debug)]

/-- The Winston adapter level translation:
`levelMap[winstonLevel] || 'info'`. -/
def mapWinstonLevelToMcp (winstonLevel : String) : LogLevel :=
  match winstonLevelMap.lookup winstonLevel with
  | some l => l
  | none => .info

/-- A Pino level value: `string | number`. -/
inductive PinoLevel
  | num (n : Int)
  | str (s : String)
deriving DecidableEq, Repr

/-- The `levelMap` record literal of
`SimpleMcpPinoTransport.mapPinoLevelToMcp` (string branch). -/
def pinoLevelMap : List (String × LogLevel) :=
  [("fatal", .error), ("error", .error), ("warn", .warn), ("info", .info),
   ("debug", .debug), ("trace", .debug)]

/-- The Pino adapter level translation: the numeric threshold chain for
number levels, `levelMap[pinoLevel] || 'info'` for string levels. -/
def mapPinoLevelToMcp : PinoLevel → LogLevel
  | .num n =>
      if n ≥ 60 then .error
      else if n ≥ 50 then .error
      else if n ≥ 40 then .warn
      else if n ≥ 30 then .info
      else if n ≥ 20 then .debug
      else .debug
  | .str s =>
      match pinoLevelMap.lookup s with
      | some l => l
      | none => .info

/-- File writes produced by a sequence of `info` calls (each given as a
timestamp/message pair); `info` does not change the logger state, so the
batch is the concatenation of the individual effects. -/
def Logger.infoBatch (st : Logger) (msgs : List (String × String)) : List FileWrite :=
  msgs.flatMap (fun p => (st.info p.1 p.2 []).fileWrites)

/-- The lines a list of file writes appends to a given path, in order. -/
def linesAt (ws : List FileWrite) (p : String) : List String :=
  (ws.filter (fun w => w.path == p)).map (fun w => w.line)

/-- The failing input for C3: a logger in protocol-safe (MCP) mode with a
file sink configured and open, at threshold debug. -/
def mcpFileLogger : Logger :=
  ⟨⟨.debug, true, "", some "app.log"⟩, some ⟨"app.log", false⟩⟩

/-- Concrete logger used by the C8 witness: threshold debug, sink open on
path `a.log`. -/
def roundTripLogger : Logger := ⟨⟨.debug, false, "", some "a.log"⟩, some ⟨"a.log", false⟩⟩


/-- The console effect of `debug` is governed by `shouldLogToConsole`. -/
theorem Logger.debug_console_eq (st : Logger) (ts m : String) (a : List JsValue) :
    (st.debug ts m a).console =
      if st.shouldLogToConsole .debug then [⟨.cdebug, some (st.formatMessage m), a⟩]
      else [] := by
  cases h1 : st.shouldLog .debug with
  | false =>
      have h2 : st.shouldLogToConsole .debug = false := by
        simp [Logger.shouldLogToConsole, h1]
      simp [Logger.debug, h1, h2]
  | true => simp [Logger.debug, h1]

/-- The console effect of `info` is governed by `shouldLogToConsole`. -/
theorem Logger.info_console_eq (st : Logger) (ts m : String) (a : List JsValue) :
    (st.info ts m a).console =
      if st.shouldLogToConsole .info then [⟨.cerror, some (st.formatMessage m), a⟩]
      else [] := by
  cases h1 : st.shouldLog .info with
  | false =>
      have h2 : st.shouldLogToConsole .info = false := by
        simp [Logger.shouldLogToConsole, h1]
      simp [Logger.info, h1, h2]
  | true => simp [Logger.info, h1]

/-- The console effect of `warn` is governed by `shouldLogToConsole`. -/
theorem Logger.warn_console_eq (st : Logger) (ts m : String) (a : List JsValue) :
    (st.warn ts m a).console =
      if st.shouldLogToConsole .warn then [⟨.cwarn, some (st.formatMessage m), a⟩]
      else [] := by
  cases h1 : st.shouldLog .warn with
  | false =>
      have h2 : st.shouldLogToConsole .warn = false := by
        simp [Logger.shouldLogToConsole, h1]
      simp [Logger.warn, h1, h2]
  | true => simp [Logger.warn, h1]

/-- The console effect of `error` is governed by `shouldLogToConsole`. -/
theorem Logger.error_console_eq (st : Logger) (ts m : String) (a : List JsValue) :
    (st.error ts m a).console =
      if st.shouldLogToConsole .error then [⟨.cerror, some (st.formatMessage m), a⟩]
      else [] := by
  cases h1 : st.shouldLog .error with
  | false =>
      have h2 : st.shouldLogToConsole .error = false := by
        simp [Logger.shouldLogToConsole, h1]
      simp [Logger.error, h1, h2]
  | true => simp [Logger.error, h1]

/-- A severity method emits to console exactly when `shouldLogToConsole`
holds for its level. -/
theorem Logger.logAt_console_ne_nil (st : Logger) (L : LogLevel) (ts m : String)
    (a : List JsValue) (hL : L ≠ .silent) :
    (st.logAt L ts m a).console ≠ [] ↔ st.shouldLogToConsole L = true := by
  cases L with
  | silent => exact absurd rfl hL
  | debug =>
      rw [show st.logAt .debug ts m a = st.debug ts m a from rfl, Logger.debug_console_eq]
      cases h : st.shouldLogToConsole .debug <;> simp [h]
  | info =>
      rw [show st.logAt .info ts m a = st.info ts m a from rfl, Logger.info_console_eq]
      cases h : st.shouldLogToConsole .info <;> simp [h]
  | warn =>
      rw [show st.logAt .warn ts m a = st.warn ts m a from rfl, Logger.warn_console_eq]
      cases h : st.shouldLogToConsole .warn <;> simp [h]
  | error =>
      rw [show st.logAt .error ts m a = st.error ts m a from rfl, Logger.error_console_eq]
      cases h : st.shouldLogToConsole .error <;> simp [h]

/-- Characterization of `shouldLogToConsole` in terms of the config. -/
theorem Logger.shouldLogToConsole_iff (st : Logger) (L : LogLevel) (hL : L ≠ .silent) :
    st.shouldLogToConsole L = true ↔
      (st.config.mcpMode = false ∧ st.config.level ≠ .silent ∧
        levelIndex st.config.level ≤ levelIndex L) := by
  obtain ⟨⟨lvl, mcp, pfx, ltf⟩, fs⟩ := st
  simp only [Logger.shouldLogToConsole, Logger.shouldLog]
  cases htr : strTruthy ltf <;> cases mcp <;> cases lvl <;> cases L <;>
    simp_all <;> decide

/-- Characterization of `shouldLog` when the configured file path is
truthy. -/
theorem Logger.shouldLog_iff_of_truthy (st : Logger) (L : LogLevel) (hL : L ≠ .silent)
    (htr : strTruthy st.config.logToFile = true) :
    st.shouldLog L = true ↔
      (st.config.level ≠ .silent ∧ levelIndex st.config.level ≤ levelIndex L) := by
  obtain ⟨⟨lvl, mcp, pfx, ltf⟩, fs⟩ := st
  simp only [Logger.shouldLog] at *
  rw [htr]
  cases mcp <;> cases lvl <;> cases L <;> simp_all <;> decide

/-- The file effect of `debug` is `writeToFile` gated by `shouldLog` and a
truthy configured path. -/
theorem Logger.debug_fileWrites_eq (st : Logger) (ts m : String) (a : List JsValue) :
    (st.debug ts m a).fileWrites =
      if st.shouldLog .debug && strTruthy st.config.logToFile then
        st.writeToFile ts "debug" (st.formatMessage m) a
      else [] := by
  cases h1 : st.shouldLog .debug <;> simp [Logger.debug, h1]

/-- The file effect of `info` is `writeToFile` gated by `shouldLog` and a
truthy configured path. -/
theorem Logger.info_fileWrites_eq (st : Logger) (ts m : String) (a : List JsValue) :
    (st.info ts m a).fileWrites =
      if st.shouldLog .info && strTruthy st.config.logToFile then
        st.writeToFile ts "info" (st.formatMessage m) a
      else [] := by
  cases h1 : st.shouldLog .info <;> simp [Logger.info, h1]

/-- The file effect of `warn` is `writeToFile` gated by `shouldLog` and a
truthy configured path. -/
theorem Logger.warn_fileWrites_eq (st : Logger) (ts m : String) (a : List JsValue) :
    (st.warn ts m a).fileWrites =
      if st.shouldLog .warn && strTruthy st.config.logToFile then
        st.writeToFile ts "warn" (st.formatMessage m) a
      else [] := by
  cases h1 : st.shouldLog .warn <;> simp [Logger.warn, h1]

/-- The file effect of `error` is `writeToFile` gated by `shouldLog` and a
truthy configured path. -/
theorem Logger.error_fileWrites_eq (st : Logger) (ts m : String) (a : List JsValue) :
    (st.error ts m a).fileWrites =
      if st.shouldLog .error && strTruthy st.config.logToFile then
        st.writeToFile ts "error" (st.formatMessage m) a
      else [] := by
  cases h1 : st.shouldLog .error <;> simp [Logger.error, h1]

/-- Uniform description of the file effect of the four severity methods. -/
theorem Logger.logAt_fileWrites_eq (st : Logger) (L : LogLevel) (ts m : String)
    (a : List JsValue) (hL : L ≠ .silent) :
    (st.logAt L ts m a).fileWrites =
      if st.shouldLog L && strTruthy st.config.logToFile then
        st.writeToFile ts (levelName L) (st.formatMessage m) a
      else [] := by
  cases L with
  | silent => exact absurd rfl hL
  | debug => exact st.debug_fileWrites_eq ts m a
  | info => exact st.info_fileWrites_eq ts m a
  | warn => exact st.warn_fileWrites_eq ts m a
  | error => exact st.error_fileWrites_eq ts m a

/-- C1: For every logger configuration (threshold T, protocol-safe flag,
optional file path) and every severity level L in debug/info/warn/error,
calling the severity method for L emits to a console channel if and only
if protocol-safe mode (mcpMode) is off, ordinal(L) is at least ordinal(T),
and T is not silent. -/
theorem severity_console_emission_iff (st : Logger) (L : LogLevel) (ts message : String)
    (args : List JsValue) (hL : L ≠ .silent) :
    (st.logAt L ts message args).console ≠ [] ↔
      (st.config.mcpMode = false ∧ levelIndex L ≥ levelIndex st.config.level ∧
        st.config.level ≠ .silent) := by
  rw [st.logAt_console_ne_nil L ts message args hL, st.shouldLogToConsole_iff L hL]
  tauto

/-- Witness for C1: a concrete logger in MCP-off mode at threshold `info`
emits `warn` messages to the console. -/
theorem severity_console_emission_iff_witness :
    (LogLevel.warn ≠ LogLevel.silent) ∧
      (((Logger.mk ⟨.info, false, "", none⟩ none).logAt .warn "ts" "hello" []).console ≠ [] ↔
        ((Logger.mk ⟨.info, false, "", none⟩ none).config.mcpMode = false ∧
          levelIndex .warn ≥ levelIndex (Logger.mk ⟨.info, false, "", none⟩ none).config.level ∧
          (Logger.mk ⟨.info, false, "", none⟩ none).config.level ≠ .silent)) :=
  ⟨by decide,
   severity_console_emission_iff (Logger.mk ⟨.info, false, "", none⟩ none) .warn "ts" "hello" []
     (by decide)⟩

/-- C2: For every logger with an active file sink (a truthy configured
path and an open, non-destroyed stream) and every severity level L in
debug/info/warn/error, the severity method for L writes a line to the file
if and only if ordinal(L) is at least ordinal(T) and T is not silent,
regardless of the protocol-safe (mcpMode) flag. -/
theorem severity_file_emission_iff (st : Logger) (L : LogLevel) (ts message : String)
    (args : List JsValue) (fs : FileStream) (hL : L ≠ .silent)
    (htr : strTruthy st.config.logToFile = true)
    (hfs : st.fileStream = some fs) (hdes : fs.destroyed = false) :
    (st.logAt L ts message args).fileWrites ≠ [] ↔
      (levelIndex L ≥ levelIndex st.config.level ∧ st.config.level ≠ .silent) := by
  rw [st.logAt_fileWrites_eq L ts message args hL]
  have hw : st.writeToFile ts (levelName L) (st.formatMessage message) args ≠ [] := by
    simp [Logger.writeToFile, hfs, hdes]
  cases hsl : st.shouldLog L with
  | false =>
      have hng : ¬(levelIndex L ≥ levelIndex st.config.level ∧ st.config.level ≠ .silent) := by
        intro h
        have ht := (st.shouldLog_iff_of_truthy L hL htr).mpr ⟨h.2, h.1⟩
        rw [hsl] at ht
        exact Bool.false_ne_true ht
      simp [hng]
  | true =>
      have hpos := (st.shouldLog_iff_of_truthy L hL htr).mp hsl
      simp [htr, hw, hpos.1, hpos.2]

/-- Witness for C2: a concrete MCP-mode logger with an open file sink at
threshold `info` writes `error` messages to the file. -/
theorem severity_file_emission_iff_witness :
    (LogLevel.error ≠ LogLevel.silent) ∧
      (strTruthy (Logger.mk ⟨.info, true, "", some "a.log"⟩
          (some ⟨"a.log", false⟩)).config.logToFile = true) ∧
      ((Logger.mk ⟨.info, true, "", some "a.log"⟩ (some ⟨"a.log", false⟩)).fileStream
          = some ⟨"a.log", false⟩) ∧
      (((Logger.mk ⟨.info, true, "", some "a.log"⟩
            (some ⟨"a.log", false⟩)).logAt .error "ts" "boom" []).fileWrites ≠ [] ↔
        (levelIndex .error ≥
            levelIndex (Logger.mk ⟨.info, true, "", some "a.log"⟩
              (some ⟨"a.log", false⟩)).config.level ∧
          (Logger.mk ⟨.info, true, "", some "a.log"⟩
              (some ⟨"a.log", false⟩)).config.level ≠ .silent)) :=
  ⟨by decide, by decide, rfl,
   severity_file_emission_iff (Logger.mk ⟨.info, true, "", some "a.log"⟩
       (some ⟨"a.log", false⟩)) .error "ts" "boom" [] ⟨"a.log", false⟩
     (by decide) (by decide) rfl rfl⟩

/-- C4: For every configuration (any threshold including silent, any
protocol-safe flag, any file sink state) and every message and args,
`mcpError` emits exactly one `console.error` call carrying the
prefix-formatted message, and writes nothing to the file sink. -/
theorem mcpError_always_console_never_file (st : Logger) (message : String)
    (args : List JsValue) :
    (st.mcpError message args).console
        = [⟨.cerror, some (st.formatMessage message), args⟩] ∧
      (st.mcpError message args).fileWrites = [] :=
  ⟨rfl, rfl⟩

/-- The `formattedArgs` expression, spelled as the specification phrases
it: empty for zero args, otherwise one space plus the space-joined
serializations, objects as compact JSON and all other values by their
string form. -/
theorem formattedArgs_eq (args : List JsValue) :
    formattedArgs args =
      if args = [] then ""
      else " " ++ String.intercalate " "
        (args.map (fun a => if typeofIsObject a then jsonStringify a else jsString a)) := by
  cases args with
  | nil => rfl
  | cons x l =>
      have h1 : formattedArgs (x :: l)
          = " " ++ String.intercalate " " ((x :: l).map serializeArg) := by
        unfold formattedArgs
        rw [if_pos (by simp)]
      rw [h1]
      rfl

/-- C5: Every line a severity call writes to the file sink has the exact
shape `[timestamp] LEVEL: prefix message serialized-args` plus a newline:
LEVEL is the uppercased severity name, a truthy prefix is joined to the
message by one space (an empty prefix contributes nothing), object-typed
args are serialized as compact JSON and all other args by their string
form, the serialized args are joined by single spaces after the message,
and zero args produce no trailing space. -/
theorem file_line_shape (st : Logger) (L : LogLevel) (ts message : String)
    (args : List JsValue) (hL : L ≠ .silent) :
    ∀ w ∈ (st.logAt L ts message args).fileWrites,
      w.line =
        "[" ++ ts ++ "] " ++ toUpperStr (levelName L) ++ ": "
          ++ (if st.config.pfx == "" then message else st.config.pfx ++ " " ++ message)
          ++ (if args = [] then ""
              else " " ++ String.intercalate " "
                (args.map (fun a => if typeofIsObject a then jsonStringify a else jsString a)))
          ++ "\n" := by
  intro w hw
  rw [st.logAt_fileWrites_eq L ts message args hL] at hw
  rw [← formattedArgs_eq]
  by_cases hg : (st.shouldLog L && strTruthy st.config.logToFile) = true
  · rw [if_pos hg] at hw
    unfold Logger.writeToFile at hw
    cases hfs : st.fileStream with
    | none => rw [hfs] at hw; simp at hw
    | some fs =>
        rw [hfs] at hw
        by_cases hd : fs.destroyed
        · simp [hd] at hw
        · simp only [hd, Bool.not_false, if_pos] at hw
          have hww := List.mem_singleton.mp (by simpa using hw)
          rw [hww]
          rfl
  · rw [if_neg hg] at hw
    simp at hw

/-- Witness for C5: a concrete `info` call with prefix `[App]`, an object
argument and a string argument produces exactly the specified line. -/
theorem file_line_shape_witness :
    (LogLevel.info ≠ LogLevel.silent) ∧
      (∀ w ∈ ((Logger.mk ⟨.debug, false, "[App]", some "a.log"⟩
                (some ⟨"a.log", false⟩)).logAt .info "2024-01-01T00:00:00.000Z" "user"
                [.obj [("id", .jsNum 7)], .scalar (.jsStr "ok")]).fileWrites,
        w.line =
          "[" ++ "2024-01-01T00:00:00.000Z" ++ "] " ++ toUpperStr (levelName .info) ++ ": "
            ++ (if ("[App]" : String) == "" then "user" else "[App]" ++ " " ++ "user")
            ++ (if ([JsValue.obj [("id", .jsNum 7)], JsValue.scalar (.jsStr "ok")]
                      = ([] : List JsValue)) then ""
                else " " ++ String.intercalate " "
                  (([JsValue.obj [("id", .jsNum 7)], JsValue.scalar (.jsStr "ok")]).map
                    (fun a => if typeofIsObject a then jsonStringify a else jsString a)))
            ++ "\n") :=
  ⟨by decide,
   file_line_shape (Logger.mk ⟨.debug, false, "[App]", some "a.log"⟩ (some ⟨"a.log", false⟩))
     .info "2024-01-01T00:00:00.000Z" "user"
     [.obj [("id", .jsNum 7)], .scalar (.jsStr "ok")] (by decide)⟩

/-- The constructor leaves the supplied (merged) config unchanged in the
resulting instance. -/
theorem Logger.make_config (cfg : LoggerConfig) (o : OpenResult) :
    (Logger.make cfg o).1.config = cfg := by
  cases o <;> simp [Logger.make, Logger.initFileLogging] <;> split <;> rfl

/-- A string with a colon spliced into the middle is never empty. -/
theorem colon_append_ne_empty (s t : String) : s ++ ":" ++ t ≠ "" := by
  intro h
  have hlen := congrArg String.length h
  rw [String.length_append, String.length_append] at hlen
  have h1 : (":" : String).length = 1 := rfl
  have h0 : ("" : String).length = 0 := rfl
  omega

/-- The prefix stored by `child` is the conditional concatenation the
source computes. -/
theorem Logger.child_pfx (st : Logger) (n : String) (o : OpenResult) :
    (st.child n o).1.config.pfx
      = if st.config.pfx == "" then n else st.config.pfx ++ ":" ++ n := by
  unfold Logger.child
  rw [Logger.make_config]

/-- C6: Child derivation concatenates prefixes associatively in effect:
for a logger with truthy prefix P, `child(B)` of `child(A)` yields a
logger whose rendered prefix is `P:A:B` (both as the stored prefix and in
the message rendering); for a logger with empty prefix, `child(C)` yields
stored prefix exactly `C`, rendered with no separator artifact. -/
theorem child_prefix_concat (st : Logger) (A B C : String) (o₁ o₂ o₃ : OpenResult) :
    (st.config.pfx ≠ "" →
      ((st.child A o₁).1.child B o₂).1.config.pfx
          = st.config.pfx ++ ":" ++ A ++ ":" ++ B ∧
        ∀ m, ((st.child A o₁).1.child B o₂).1.formatMessage m
          = st.config.pfx ++ ":" ++ A ++ ":" ++ B ++ " " ++ m) ∧
    (st.config.pfx = "" →
      (st.child C o₃).1.config.pfx = C ∧
        (C ≠ "" → ∀ m, (st.child C o₃).1.formatMessage m = C ++ " " ++ m)) := by
  constructor
  · intro hp
    have hp' : (st.config.pfx == "") = false := by simpa using hp
    have h1 : (st.child A o₁).1.config.pfx = st.config.pfx ++ ":" ++ A := by
      rw [Logger.child_pfx]
      simp [hp']
    have hmid : ((st.config.pfx ++ ":" ++ A) == "") = false := by
      simpa using colon_append_ne_empty st.config.pfx A
    have h2 : ((st.child A o₁).1.child B o₂).1.config.pfx
        = st.config.pfx ++ ":" ++ A ++ ":" ++ B := by
      rw [Logger.child_pfx, h1]
      simp [hmid]
    refine ⟨h2, fun m => ?_⟩
    unfold Logger.formatMessage
    rw [h2]
    have hfull : (st.config.pfx ++ ":" ++ A ++ ":" ++ B == "") = false := by
      simpa using colon_append_ne_empty (st.config.pfx ++ ":" ++ A) B
    simp [hfull]
  · intro hp
    have hp' : (st.config.pfx == "") = true := by simpa using hp
    have h1 : (st.child C o₃).1.config.pfx = C := by
      rw [Logger.child_pfx]
      simp [hp']
    refine ⟨h1, fun hC m => ?_⟩
    unfold Logger.formatMessage
    rw [h1]
    simp [show (C == "") = false by simpa using hC]

/-- Witness for C6: concrete loggers with prefix `P` and with empty
prefix. -/
theorem child_prefix_concat_witness :
    ((Logger.mk ⟨.info, false, "P", none⟩ none).config.pfx ≠ "" ∧
      (((Logger.mk ⟨.info, false, "P", none⟩ none).child "A" .ok).1.child "B" .ok).1.config.pfx
        = "P" ++ ":" ++ "A" ++ ":" ++ "B") ∧
    ((Logger.mk ⟨.info, false, "", none⟩ none).config.pfx = "" ∧
      ((Logger.mk ⟨.info, false, "", none⟩ none).child "C" .ok).1.config.pfx = "C") :=
  ⟨⟨by decide,
    (((child_prefix_concat (Logger.mk ⟨.info, false, "P", none⟩ none) "A" "B" "C"
        .ok .ok .ok).1) (by decide)).1⟩,
   ⟨rfl,
    (((child_prefix_concat (Logger.mk ⟨.info, false, "", none⟩ none) "A" "B" "C"
        .ok .ok .ok).2) rfl).1⟩⟩

/-- C7: For a file path whose stream cannot be opened, both the
constructor and `setLogFile` contain the failure: the call returns
normally (the embedding is a total function; the thrown open error is the
caught `OpenResult.fail` case), exactly two informative lines are reported
on the safe console channel (`console.error`), the sink is left disabled
(no stream), and every subsequent severity call at an eligible level with
protocol-safe mode off still emits to the console. -/
theorem failed_open_contained (cfg : LoggerConfig) (p emsg : String)
    (hp : cfg.logToFile = some p) (hpe : p ≠ "") :
    (Logger.make cfg (.fail emsg)).1 = ⟨cfg, none⟩ ∧
    (Logger.make cfg (.fail emsg)).2
        = [⟨.cerror, some (initFailLine1 p emsg), []⟩,
           ⟨.cerror, some initFailLine2, []⟩] ∧
    (∀ st0 : Logger,
        (st0.setLogFile p (.fail emsg)).1.fileStream = none ∧
        (st0.setLogFile p (.fail emsg)).2
          = [⟨.cerror, some (initFailLine1 p emsg), []⟩,
             ⟨.cerror, some initFailLine2, []⟩]) ∧
    (∀ (L : LogLevel) (ts m : String) (a : List JsValue),
        L ≠ .silent → cfg.mcpMode = false → cfg.level ≠ .silent →
        levelIndex cfg.level ≤ levelIndex L →
        ((Logger.make cfg (.fail emsg)).1.logAt L ts m a).console ≠ []) := by
  have htr : strTruthy (some p) = true := by simp [strTruthy, hpe]
  have hmk : Logger.make cfg (.fail emsg)
      = (⟨cfg, none⟩,
         [⟨.cerror, some (initFailLine1 p emsg), []⟩,
          ⟨.cerror, some initFailLine2, []⟩]) := by
    unfold Logger.make
    rw [hp]
    simp [htr, Logger.initFileLogging]
  refine ⟨by rw [hmk], by rw [hmk], fun st0 => ?_, fun L ts m a hL hmcp hsil hidx => ?_⟩
  · unfold Logger.setLogFile
    simp [Logger.initFileLogging]
  · rw [hmk]
    rw [Logger.logAt_console_ne_nil _ L ts m a hL, Logger.shouldLogToConsole_iff _ L hL]
    exact ⟨hmcp, hsil, hidx⟩

/-- Witness for C7: a concrete unwritable path with a concrete error
message, at threshold `info` with protocol-safe mode off. -/
theorem failed_open_contained_witness :
    ((⟨.info, false, "", some "/bad/path.log"⟩ : LoggerConfig).logToFile
        = some "/bad/path.log") ∧
      (("/bad/path.log" : String) ≠ "") ∧
      (Logger.make ⟨.info, false, "", some "/bad/path.log"⟩ (.fail "EACCES")).1
        = ⟨⟨.info, false, "", some "/bad/path.log"⟩, none⟩ ∧
      ((Logger.make ⟨.info, false, "", some "/bad/path.log"⟩
            (.fail "EACCES")).1.logAt .info "ts" "still works" []).console ≠ [] :=
  ⟨rfl, by decide,
   (failed_open_contained ⟨.info, false, "", some "/bad/path.log"⟩ "/bad/path.log" "EACCES"
       rfl (by decide)).1,
   (failed_open_contained ⟨.info, false, "", some "/bad/path.log"⟩ "/bad/path.log" "EACCES"
       rfl (by decide)).2.2.2 .info "ts" "still works" [] (by decide) rfl (by decide)
     (by decide)⟩

/-- File effect of one `info` call without extra args against a live
stream at path `q`, written out as the concrete line. -/
theorem Logger.info_fileWrites_active (st : Logger) (q ts m : String)
    (hfs : st.fileStream = some ⟨q, false⟩)
    (htr : strTruthy st.config.logToFile = true)
    (hsl : st.shouldLog .info = true) :
    (st.info ts m []).fileWrites
      = [⟨q, "[" ++ ts ++ "] " ++ "INFO" ++ ": " ++ st.formatMessage m ++ "\n"⟩] := by
  rw [Logger.info_fileWrites_eq, if_pos (by simp [hsl, htr])]
  unfold Logger.writeToFile
  rw [hfs]
  simp only [Bool.not_false, if_pos]
  have hup : toUpperStr "info" = "INFO" := by decide
  have hfa : formattedArgs [] = "" := rfl
  rw [hup, hfa, String.append_empty]

/-- A batch of `info` calls against a live stream at path `q` appends one
line per message, in order. -/
theorem Logger.infoBatch_eq (st : Logger) (q : String) (msgs : List (String × String))
    (hfs : st.fileStream = some ⟨q, false⟩)
    (htr : strTruthy st.config.logToFile = true)
    (hsl : st.shouldLog .info = true) :
    st.infoBatch msgs
      = msgs.map (fun pr =>
          ⟨q, "[" ++ pr.1 ++ "] " ++ "INFO" ++ ": " ++ st.formatMessage pr.2 ++ "\n"⟩) := by
  induction msgs with
  | nil => rfl
  | cons pr rest ih =>
      unfold Logger.infoBatch at ih ⊢
      rw [List.flatMap_cons, ih, st.info_fileWrites_active q pr.1 pr.2 hfs htr hsl]
      rfl

/-- `linesAt` distributes over concatenation of write lists. -/
theorem linesAt_append (a b : List FileWrite) (p : String) :
    linesAt (a ++ b) p = linesAt a p ++ linesAt b p := by
  simp [linesAt, List.filter_append]

/-- `linesAt` on a list of writes that all target path `q`: everything
when asked for `q`, nothing when asked for a different path. -/
theorem linesAt_map_const_path {α : Type} (l : List α) (g : α → String) (q p : String) :
    linesAt (l.map (fun x => ⟨q, g x⟩)) p
      = if q = p then l.map g else [] := by
  induction l with
  | nil => simp [linesAt]
  | cons x rest ih =>
      by_cases h : q = p
      · subst h
        simp only [linesAt, List.map_cons, List.filter_cons] at ih ⊢
        simp_all [linesAt]
      · simp only [linesAt, List.map_cons, List.filter_cons] at ih ⊢
        simp_all [linesAt, h]

/-- C8: With an active file sink on the first path, writing the first
batch of messages at an eligible level, then awaiting `setLogFile` to a
second path, then writing the second batch, appends exactly one
newline-terminated line per first-batch message to the first file and one
per second-batch message to the second file, with no line of either batch
in the other file. -/
theorem setLogFile_round_trip (st : Logger) (p₁ p₂ : String)
    (msgs1 msgs2 : List (String × String))
    (hcfg : st.config.logToFile = some p₁)
    (hfs : st.fileStream = some ⟨p₁, false⟩)
    (hp1 : p₁ ≠ "") (hp2 : p₂ ≠ "") (hne : p₁ ≠ p₂)
    (hsil : st.config.level ≠ .silent)
    (hidx : levelIndex st.config.level ≤ levelIndex .info) :
    linesAt (st.infoBatch msgs1 ++ (st.setLogFile p₂ .ok).1.infoBatch msgs2) p₁
        = msgs1.map (fun pr =>
            "[" ++ pr.1 ++ "] " ++ "INFO" ++ ": " ++ st.formatMessage pr.2 ++ "\n") ∧
    (linesAt (st.infoBatch msgs1 ++ (st.setLogFile p₂ .ok).1.infoBatch msgs2) p₁).length
        = msgs1.length ∧
    linesAt (st.infoBatch msgs1 ++ (st.setLogFile p₂ .ok).1.infoBatch msgs2) p₂
        = msgs2.map (fun pr =>
            "[" ++ pr.1 ++ "] " ++ "INFO" ++ ": " ++ st.formatMessage pr.2 ++ "\n") ∧
    (linesAt (st.infoBatch msgs1 ++ (st.setLogFile p₂ .ok).1.infoBatch msgs2) p₂).length
        = msgs2.length ∧
    linesAt ((st.setLogFile p₂ .ok).1.infoBatch msgs2) p₁ = [] ∧
    linesAt (st.infoBatch msgs1) p₂ = [] := by
  have hstr1 : strTruthy st.config.logToFile = true := by
    rw [hcfg]; simp [strTruthy, hp1]
  have hsl1 : st.shouldLog .info = true :=
    (st.shouldLog_iff_of_truthy .info (by decide) hstr1).mpr ⟨hsil, hidx⟩
  have hw1 := st.infoBatch_eq p₁ msgs1 hfs hstr1 hsl1
  have hst2 : (st.setLogFile p₂ .ok).1
      = ⟨⟨st.config.level, st.config.mcpMode, st.config.pfx, some p₂⟩,
         some ⟨p₂, false⟩⟩ := by
    unfold Logger.setLogFile Logger.close Logger.initFileLogging
    rw [hfs]
    rfl
  have hstr2 : strTruthy ((st.setLogFile p₂ .ok).1).config.logToFile = true := by
    rw [hst2]; simp [strTruthy, hp2]
  have hfs2 : ((st.setLogFile p₂ .ok).1).fileStream = some ⟨p₂, false⟩ := by
    rw [hst2]
  have hsl2 : ((st.setLogFile p₂ .ok).1).shouldLog .info = true := by
    refine (Logger.shouldLog_iff_of_truthy _ .info (by decide) hstr2).mpr ?_
    rw [hst2]
    exact ⟨hsil, hidx⟩
  have hw2 := ((st.setLogFile p₂ .ok).1).infoBatch_eq p₂ msgs2 hfs2 hstr2 hsl2
  have hfm2 : ∀ m, ((st.setLogFile p₂ .ok).1).formatMessage m = st.formatMessage m := by
    intro m; rw [hst2]; rfl
  rw [hw1, hw2]
  simp only [hfm2]
  simp [linesAt_append, linesAt_map_const_path, hne, Ne.symm hne]

/-- Witness for C8: two messages to `a.log`, a switch to `b.log`, one more
message; the first file gets exactly two lines, the second exactly one,
with no cross-contamination. -/
theorem setLogFile_round_trip_witness :
    (roundTripLogger.config.logToFile = some "a.log") ∧
      (("a.log" : String) ≠ "b.log") ∧
      (linesAt (roundTripLogger.infoBatch [("t1", "m1"), ("t2", "m2")] ++
            (roundTripLogger.setLogFile "b.log" .ok).1.infoBatch [("t3", "m3")])
          "a.log").length = 2 ∧
      (linesAt (roundTripLogger.infoBatch [("t1", "m1"), ("t2", "m2")] ++
            (roundTripLogger.setLogFile "b.log" .ok).1.infoBatch [("t3", "m3")])
          "b.log").length = 1 ∧
      linesAt ((roundTripLogger.setLogFile "b.log" .ok).1.infoBatch [("t3", "m3")])
          "a.log" = [] ∧
      linesAt (roundTripLogger.infoBatch [("t1", "m1"), ("t2", "m2")]) "b.log" = [] :=
  ⟨rfl, by decide,
   (setLogFile_round_trip roundTripLogger "a.log" "b.log"
       [("t1", "m1"), ("t2", "m2")] [("t3", "m3")]
       rfl rfl (by decide) (by decide) (by decide) (by decide) (by decide)).2.1,
   (setLogFile_round_trip roundTripLogger "a.log" "b.log"
       [("t1", "m1"), ("t2", "m2")] [("t3", "m3")]
       rfl rfl (by decide) (by decide) (by decide) (by decide) (by decide)).2.2.2.1,
   (setLogFile_round_trip roundTripLogger "a.log" "b.log"
       [("t1", "m1"), ("t2", "m2")] [("t3", "m3")]
       rfl rfl (by decide) (by decide) (by decide) (by decide) (by decide)).2.2.2.2.1,
   (setLogFile_round_trip roundTripLogger "a.log" "b.log"
       [("t1", "m1"), ("t2", "m2")] [("t3", "m3")]
       rfl rfl (by decide) (by decide) (by decide) (by decide) (by decide)).2.2.2.2.2⟩

/-- C3 (code evaluated at the failing input): with protocol-safe mode ON
and a file sink configured, the console-compatibility methods still invoke
console primitives — `table` calls `console.table`, `group` calls
`console.group` and `trace` calls `console.trace` — because they are gated
only by `shouldLog`, which passes in MCP mode whenever a file path is
configured; this contradicts the suppression the claim (and the source
doc comments of `mcpMode` and `setMcpMode`) state. -/
theorem mcp_mode_console_leak :
    mcpFileLogger.config.mcpMode = true ∧
      (mcpFileLogger.table (.obj [("a", .jsNum 1)]) none).console
        = [⟨.ctable, none, [.obj [("a", .jsNum 1)]]⟩] ∧
      (mcpFileLogger.group (some "g")).console = [⟨.cgroup, some "g", []⟩] ∧
      (mcpFileLogger.trace (some "t") []).console = [⟨.ctrace, some "t", []⟩] := by
  refine ⟨rfl, ?_, ?_, ?_⟩ <;> decide

/-- C9 counterexample: the claimed uniform adapter table is false on the
code — the Winston map has no `fatal` or `trace` entry (both fall back to
`info`), and the Pino map has no `verbose` or `silly` entry (both fall
back to `info`). -/
theorem adapter_level_map_counterexample :
    mapWinstonLevelToMcp "fatal" ≠ .error ∧ mapWinstonLevelToMcp "fatal" = .info ∧
      mapWinstonLevelToMcp "trace" ≠ .debug ∧ mapWinstonLevelToMcp "trace" = .info ∧
      mapPinoLevelToMcp (.str "verbose") ≠ .debug ∧
      mapPinoLevelToMcp (.str "verbose") = .info ∧
      mapPinoLevelToMcp (.str "silly") ≠ .debug ∧
      mapPinoLevelToMcp (.str "silly") = .info := by
  decide

/-- C9 as amended: the Winston adapter maps error to error, warn to warn,
info and http to info, debug, verbose and silly to debug, and every other
severity name (including fatal and trace) to info; the Pino adapter maps
fatal and error to error, warn to warn, info to info, debug and trace to
debug, and every other severity name (including verbose, silly and http)
to info. -/
theorem adapter_level_mapping (w p : String)
    (hw : w ≠ "error" ∧ w ≠ "warn" ∧ w ≠ "info" ∧ w ≠ "http" ∧ w ≠ "verbose" ∧
      w ≠ "debug" ∧ w ≠ "silly")
    (hp : p ≠ "fatal" ∧ p ≠ "error" ∧ p ≠ "warn" ∧ p ≠ "info" ∧ p ≠ "debug" ∧
      p ≠ "trace") :
    (mapWinstonLevelToMcp "error" = .error ∧ mapWinstonLevelToMcp "warn" = .warn ∧
      mapWinstonLevelToMcp "info" = .info ∧ mapWinstonLevelToMcp "http" = .info ∧
      mapWinstonLevelToMcp "verbose" = .debug ∧ mapWinstonLevelToMcp "debug" = .debug ∧
      mapWinstonLevelToMcp "silly" = .debug) ∧
    mapWinstonLevelToMcp w = .info ∧
    (mapPinoLevelToMcp (.str "fatal") = .error ∧ mapPinoLevelToMcp (.str "error") = .error ∧
      mapPinoLevelToMcp (.str "warn") = .warn ∧ mapPinoLevelToMcp (.str "info") = .info ∧
      mapPinoLevelToMcp (.str "debug") = .debug ∧ mapPinoLevelToMcp (.str "trace") = .debug) ∧
    mapPinoLevelToMcp (.str p) = .info := by
  obtain ⟨hw1, hw2, hw3, hw4, hw5, hw6, hw7⟩ := hw
  obtain ⟨hp1, hp2, hp3, hp4, hp5, hp6⟩ := hp
  refine ⟨by decide, ?_, by decide, ?_⟩
  · simp only [mapWinstonLevelToMcp, winstonLevelMap, List.lookup,
      beq_eq_false_iff_ne.mpr hw1, beq_eq_false_iff_ne.mpr hw2,
      beq_eq_false_iff_ne.mpr hw3, beq_eq_false_iff_ne.mpr hw4,
      beq_eq_false_iff_ne.mpr hw5, beq_eq_false_iff_ne.mpr hw6,
      beq_eq_false_iff_ne.mpr hw7]
  · simp only [mapPinoLevelToMcp, pinoLevelMap, List.lookup,
      beq_eq_false_iff_ne.mpr hp1, beq_eq_false_iff_ne.mpr hp2,
      beq_eq_false_iff_ne.mpr hp3, beq_eq_false_iff_ne.mpr hp4,
      beq_eq_false_iff_ne.mpr hp5, beq_eq_false_iff_ne.mpr hp6]

/-- Witness for the amended C9: the unknown-name fallbacks at the concrete
names `fatal` (unknown to the Winston map) and `verbose` (unknown to the
Pino map). -/
theorem adapter_level_mapping_witness :
    (("fatal" : String) ≠ "error" ∧ ("fatal" : String) ≠ "warn" ∧
      ("fatal" : String) ≠ "info" ∧ ("fatal" : String) ≠ "http" ∧
      ("fatal" : String) ≠ "verbose" ∧ ("fatal" : String) ≠ "debug" ∧
      ("fatal" : String) ≠ "silly") ∧
    (mapWinstonLevelToMcp "fatal" = .info ∧ mapPinoLevelToMcp (.str "verbose") = .info) :=
  ⟨by decide,
   ⟨(adapter_level_mapping "fatal" "verbose" (by decide) (by decide)).2.1,
    (adapter_level_mapping "fatal" "verbose" (by decide) (by decide)).2.2.2⟩⟩

/-- C10: For every logger state and every input, the
console-compatibility methods (`trace`, `table`, `group`,
`groupCollapsed`, `groupEnd`, `time`, `timeEnd`, `timeLog`, `count`,
`countReset`, `assert`, `clear`, `dir`, `dirxml`) write nothing to the
file sink, and `log` is identical to `info` (so the file is changed only
through the four severity methods and their `log` alias). -/
theorem compat_methods_never_write_file (st : Logger) (message label : Option String)
    (args : List JsValue) (data o₁ o₂ : JsValue) (columns : Option (List String))
    (condition hasClear : Bool) (options : Option JsValue) (ts m : String) :
    (st.trace message args).fileWrites = [] ∧
    (st.table data columns).fileWrites = [] ∧
    (st.group label).fileWrites = [] ∧
    (st.groupCollapsed label).fileWrites = [] ∧
    st.groupEnd.fileWrites = [] ∧
    (st.time label).fileWrites = [] ∧
    (st.timeEnd label).fileWrites = [] ∧
    (st.timeLog label args).fileWrites = [] ∧
    (st.count label).fileWrites = [] ∧
    (st.countReset label).fileWrites = [] ∧
    (st.assert condition message args).fileWrites = [] ∧
    (st.clear hasClear).fileWrites = [] ∧
    (st.dir o₁ options).fileWrites = [] ∧
    (st.dirxml o₂).fileWrites = [] ∧
    st.log ts m args = st.info ts m args := by
  refine ⟨?_, ?_, ?_, ?_, ?_, ?_, ?_, ?_, ?_, ?_, ?_, ?_, ?_, ?_, rfl⟩ <;>
    first
      | (unfold Logger.trace; split <;> (try split) <;> (try split) <;> rfl)
      | (unfold Logger.table; split <;> rfl)
      | (unfold Logger.group; split <;> rfl)
      | (unfold Logger.groupCollapsed; split <;> rfl)
      | (unfold Logger.groupEnd; split <;> rfl)
      | (unfold Logger.time; split <;> rfl)
      | (unfold Logger.timeEnd; split <;> rfl)
      | (unfold Logger.timeLog; split <;> rfl)
      | (unfold Logger.count; split <;> rfl)
      | (unfold Logger.countReset; split <;> rfl)
      | (unfold Logger.assert; split <;> (try split) <;> (try split) <;> rfl)
      | (unfold Logger.clear; split <;> rfl)
      | (unfold Logger.dir; split <;> rfl)
      | (unfold Logger.dirxml; split <;> rfl)
